import Mathlib

/-!
Verification of the Mandelbrot-Set renderer (AndrewGlebovski/Mandelbrot-Set).

The development shallowly embeds the core of `source/draw.cpp` together with
the constants of `configs.hpp`:

* `set_pixel_color`    — the per-pixel color write (4 RGBA bytes);
* `transform_input`    — pan/zoom mutation of the viewport `Transform`;
* `load_color_table`   — the palette loader with its error codes;
* `vecRun` / `set_pixels_counts` — the AVX2 per-batch escape-time loop of
  `set_pixels`, modelled lane-by-lane (8 lanes, per-lane activity mask,
  early exit when all lanes escaped or a lane count reaches `NMAX`);
* `rowBytes` / `frameRows` / `set_pixels_frame` — the frame orchestration of
  `set_pixels` (row-major buffer, batches of 8 columns, mirrored unused
  x-argument passed to `set_pixel_color`).

The 32-bit float arithmetic of the source is modelled exactly over `ℚ`:
every arithmetic expression is translated operation-for-operation, so loop
structure, masking and comparison semantics are preserved; rounding is not
modelled.  The scalar contract `iterate` is modelled from the specification
(no scalar form exists in the source) for the refinement comparison with the
vectorized loop.
-/

/-! ## Constants (configs.hpp) -/

def SCREEN_W : ℕ := 1080

def SCREEN_H : ℕ := 1080

def RMAX : ℚ := 4 * (SCREEN_W : ℚ)

def NMAX : ℕ := 255

def MOVE_FACTOR : ℚ := 5 / 100

def ZOOM_FACTOR : ℚ := 5 / 10

def POSSIBLE_COLORS : ℕ := 16

def CENTER_X : ℚ := -75 / 100

def CENTER_Y : ℚ := 0

def SET_W : ℚ := 35 / 10

def SET_H : ℚ := 35 / 10

/-! ## Data model -/

/-- Color in RGB format (struct `IterColor`, three `uint8_t` channels). -/
structure IterColor where
  red : ℕ
  green : ℕ
  blue : ℕ
deriving DecidableEq

/-- Mandelbrot set offset and scale (struct `Transform`). -/
structure Transform where
  center_x : ℚ := CENTER_X
  center_y : ℚ := CENTER_Y
  set_w : ℚ := SET_W
  set_h : ℚ := SET_H
deriving DecidableEq

/-- Function exit codes (enum `EXIT_CODES`). -/
inductive ExitCode where
  | OK
  | INVALID_ARG
  | ALLOC_FAIL
  | FILE_NOT_FOUND
  | INVALID_FORMAT
deriving DecidableEq

/-! ## set_pixel_color -/

/-- Model of `set_pixel_color`: the four bytes written at the pixel's buffer
offset, in order R, G, B, A.  The `x` and `y` parameters are taken (as in the
source) but never used. -/
def set_pixel_color (color_table : Fin POSSIBLE_COLORS → IterColor) (N : ℕ)
    (x y : ℚ) : List ℕ :=
  if 0 < N ∧ N < NMAX then
    let idx : Fin POSSIBLE_COLORS := ⟨N % POSSIBLE_COLORS, Nat.mod_lt N (by decide)⟩
    [(color_table idx).red, (color_table idx).green, (color_table idx).blue, 255]
  else
    [0, 0, 0, 255]

/-! ## transform_input -/

/-- Keyboard keys distinguished by `transform_input` (other keys fall to the
default case). -/
inductive Key where
  | Up
  | Down
  | Left
  | Right
  | Other
deriving DecidableEq

/-- Events distinguished by `transform_input`: key presses, mouse wheel
scrolls (wheel kind and delta), and everything else. -/
inductive Event where
  | KeyPressed (key : Key)
  | MouseWheelScrolled (vertical : Bool) (delta : ℚ)
  | Other
deriving DecidableEq

/-- Model of `transform_input`: the new `Transform` after one event. -/
def transform_input (event : Event) (t : Transform) : Transform :=
  match event with
  | .KeyPressed .Up => { t with center_y := t.center_y - MOVE_FACTOR * t.set_h }
  | .KeyPressed .Down => { t with center_y := t.center_y + MOVE_FACTOR * t.set_h }
  | .KeyPressed .Left => { t with center_x := t.center_x - MOVE_FACTOR * t.set_w }
  | .KeyPressed .Right => { t with center_x := t.center_x + MOVE_FACTOR * t.set_w }
  | .KeyPressed .Other => t
  | .MouseWheelScrolled vertical delta =>
    if vertical then
      if 0 < delta then
        { t with set_w := t.set_w * ZOOM_FACTOR, set_h := t.set_h * ZOOM_FACTOR }
      else
        { t with set_w := t.set_w / ZOOM_FACTOR, set_h := t.set_h / ZOOM_FACTOR }
    else t
  | .Other => t

/-! ## load_color_table

The file behind `fopen` is abstracted as `none` (cannot be opened) or
`some toks`, the sequence of whitespace-separated tokens `fscanf` will see.
A token is either a numeric token (`ScanTok.num z`, the integer `strtoul`
conversion yields — `%hhu` accepts an optionally signed decimal of any
magnitude) or a non-numeric token (`ScanTok.bad`, on which the `%hhu`
conversion fails).  One `fscanf("%hhu %hhu %hhu", ...)` call scans three
tokens; it returns 3 and stores each value reduced modulo 256 into the
`uint8_t` channel (the unsigned-char narrowing of the C library — there is
no 0..255 range validation), or fewer than 3 as soon as the input ends or a
non-numeric token is met. -/

/-- Tokens of the color-table source as `fscanf` sees them. -/
inductive ScanTok where
  | num (z : ℤ)
  | bad
deriving DecidableEq

/-- Storage of one `%hhu` conversion: the scanned integer narrowed to the
`uint8_t` field, i.e. reduced modulo 256.  Out-of-range values (300, -5,
...) are accepted and wrap; they never fail the scan. -/
def byteOf (z : ℤ) : ℕ := (z % 256).toNat

/-- One `fscanf("%hhu %hhu %hhu", ...)` call: three numeric tokens give a
parsed `IterColor` and the remaining stream; anything else is a short
return (`!= 3`). -/
def scanTriple (toks : List ScanTok) : Option (IterColor × List ScanTok) :=
  match toks with
  | .num z1 :: .num z2 :: .num z3 :: rest =>
    some (⟨byteOf z1, byteOf z2, byteOf z3⟩, rest)
  | _ => none

/-- Loop body of `load_color_table`: scans the `k` remaining entries in
order; the first failed scan frees the buffer, nulls it and returns
`INVALID_FORMAT`.  On success the table holds the scanned triples in order
(`calloc` zero-initialises, every entry is then overwritten by its scan). -/
def load_from (acc : List IterColor) :
    List ScanTok → ℕ → ExitCode × Option (Fin POSSIBLE_COLORS → IterColor)
  | _, 0 => (ExitCode.OK, some fun j => acc.getD (j : ℕ) ⟨0, 0, 0⟩)
  | toks, k + 1 =>
    match scanTriple toks with
    | none => (ExitCode.INVALID_FORMAT, none)
    | some (c, rest) => load_from (acc ++ [c]) rest k

/-- Model of `load_color_table`: exit code together with the final value of
the output buffer pointer (`none` = null). -/
def load_color_table (file : Option (List ScanTok)) :
    ExitCode × Option (Fin POSSIBLE_COLORS → IterColor) :=
  match file with
  | none => (ExitCode.FILE_NOT_FOUND, none)
  | some toks => load_from [] toks POSSIBLE_COLORS

/-- Token `j` of the stream exists and is numeric. -/
def numAt (toks : List ScanTok) (j : ℕ) : Prop :=
  ∃ z, toks.get? j = some (ScanTok.num z)

/-! ## The vectorized escape-time loop of set_pixels

The inner `for (;;)` loop of `set_pixels` runs 8 lanes in lockstep.  Each
lane `i` holds `x i`, `y i` and an iteration count `N i`.  Per iteration the
loop computes the activity mask `res1` (`x_i^2 + y_i^2 < RMAX^2`), breaks
when no lane is active, increments `N` on active lanes, breaks when some
lane count equals `NMAX`, and finally updates every lane's state
(the state update is unmasked in the source).  The unbounded `for (;;)` is
modelled with explicit fuel; `vecRun` returns `none` only if the fuel runs
out, which `set_pixels` theorems show never happens with fuel `NMAX`. -/

/-- State of the 8 lanes of the vectorized loop (`x_i`, `y_i`, `N`). -/
structure VecState where
  x : Fin 8 → ℚ
  y : Fin 8 → ℚ
  N : Fin 8 → ℕ

/-- One-to-one model of the `for (;;)` loop of `set_pixels`, with fuel. -/
def vecRun (x0 : Fin 8 → ℚ) (y0 : ℚ) : ℕ → VecState → Option (Fin 8 → ℕ)
  | 0, _ => none
  | fuel + 1, s =>
    if ∀ i, ¬(s.x i * s.x i + s.y i * s.y i < RMAX * RMAX) then
      some s.N
    else
      let N' : Fin 8 → ℕ := fun i =>
        s.N i + if s.x i * s.x i + s.y i * s.y i < RMAX * RMAX then 1 else 0
      if ∃ i, N' i = NMAX then
        some N'
      else
        vecRun x0 y0 fuel
          { x := fun i => s.x i * s.x i - s.y i * s.y i + x0 i
            y := fun i => 2 * (s.x i * s.y i) + y0
            N := N' }

/-- Initial lane state of a batch in `set_pixels`: per-lane starting
x-coordinates, the common `y0`, counts zero. -/
def initState (x0 : Fin 8 → ℚ) (y0 : ℚ) : VecState :=
  { x := x0, y := fun _ => y0, N := fun _ => 0 }

/-- Per-lane iteration counts a batch of `set_pixels` produces. -/
def set_pixels_counts (x0 : Fin 8 → ℚ) (y0 : ℚ) : Fin 8 → ℕ :=
  (vecRun x0 y0 NMAX (initState x0 y0)).getD fun _ => 0

/-! ## The scalar contract, modelled from the spec

Modelled from the spec: no scalar escape-time function exists in the source
(only the vectorized loop); `iterate` follows the specification's scalar
contract word for word — initialize `(x, y) = (x0, y0)`, repeat up to
`n_max` times, stop and return the number of completed iterations when
`x^2 + y^2 > r_max^2`, otherwise update `x = x^2 - y^2 + x0`,
`y = 2*x*y + y0`; return `n_max` when the bound is reached. -/

/-- Modelled from the spec: the iteration kernel of the scalar contract,
recursing on the remaining iteration budget. -/
def iterateFrom (x0 y0 r_max : ℚ) : ℚ → ℚ → ℕ → ℕ
  | _, _, 0 => 0
  | x, y, fuel + 1 =>
    if r_max * r_max < x * x + y * y then 0
    else iterateFrom x0 y0 r_max (x * x - y * y + x0) (2 * (x * y) + y0) fuel + 1

/-- Modelled from the spec: the scalar contract
`iterate(x0, y0, n_max, r_max)`. -/
def iterate (x0 y0 : ℚ) (n_max : ℕ) (r_max : ℚ) : ℕ :=
  iterateFrom x0 y0 r_max x0 y0 n_max

/-- Scalar iteration kernel with the escape comparison the vectorized code
actually implements: a point is escaped as soon as `x^2 + y^2 >= r_max^2`
(the lane mask in `set_pixels` keeps a lane active only while
`x^2 + y^2 < RMAX^2`). -/
def iterateGeFrom (x0 y0 r_max : ℚ) : ℚ → ℚ → ℕ → ℕ
  | _, _, 0 => 0
  | x, y, fuel + 1 =>
    if r_max * r_max ≤ x * x + y * y then 0
    else iterateGeFrom x0 y0 r_max (x * x - y * y + x0) (2 * (x * y) + y0) fuel + 1

/-- Scalar escape-time function with the `>=` escape comparison of the
vectorized code; otherwise identical to `iterate`. -/
def iterateGe (x0 y0 : ℚ) (n_max : ℕ) (r_max : ℚ) : ℕ :=
  iterateGeFrom x0 y0 r_max x0 y0 n_max

/-! ## Lane dynamics

Every lane's state follows the orbit `z_0 = (x0, y0)`,
`z_(t+1) = z_t^2 + (x0, y0)` (state updates in the loop are unmasked), and a
lane's count increments exactly on the iterations where the lane is still
inside the escape radius.  `traj` is that orbit and `cnt` that count. -/

/-- Orbit of one lane: `traj x0 y0 t` is the lane state after `t` unmasked
updates of the vectorized loop. -/
def traj (x0 y0 : ℚ) : ℕ → ℚ × ℚ
  | 0 => (x0, y0)
  | t + 1 =>
    ((traj x0 y0 t).1 * (traj x0 y0 t).1 - (traj x0 y0 t).2 * (traj x0 y0 t).2 + x0,
     2 * ((traj x0 y0 t).1 * (traj x0 y0 t).2) + y0)

/-- Escape predicate of the vectorized code: the lane mask is false. -/
def esc (p : ℚ × ℚ) : Prop := RMAX * RMAX ≤ p.1 * p.1 + p.2 * p.2

instance (p : ℚ × ℚ) : Decidable (esc p) := by unfold esc; infer_instance

/-- Number of iterations among the first `t` on which the lane is active. -/
def cnt (x0 y0 : ℚ) : ℕ → ℕ
  | 0 => 0
  | t + 1 => cnt x0 y0 t + if esc (traj x0 y0 t) then 0 else 1

/-! ## No re-entry: an escaped lane never becomes active again

With the configured radius (`RMAX = 4320`, so `RMAX^2 >= 4`) a lane whose
squared norm has reached `RMAX^2` keeps growing, so the activity mask of
`set_pixels` is monotone per lane: once false, always false. -/

/-- Quadratic core of the no-re-entry argument, over abstract squared norm
`A`, squared parameter norm `C` and inner product `D`. -/
theorem escape_quad (A C D : ℚ) (hA : 4 ≤ A) (hC0 : 0 ≤ C) (hCA : C ≤ A)
    (hD : D * D ≤ A * A * C) : A ≤ A * A + 2 * D + C := by
  rcases le_or_lt 0 D with hD0 | hD0
  · nlinarith
  · have h2 : 2 * A ≤ A * A - 2 * A := by nlinarith
    have hP : 2 * A ≤ A * A - A - C := by linarith
    have h8 : 0 ≤ 2 * A := by linarith
    have h9 : 2 * A * (2 * A) ≤ (A * A - A - C) * (A * A - A - C) :=
      mul_le_mul hP hP h8 (by linarith)
    have h4 : 4 * C * A ≤ (A * A - A - C) * (A * A - A - C) := by nlinarith
    have h1 : (A * A - A + C) * (A * A - A + C) - 4 * (A * A * C)
        = (A * A - A - C) * (A * A - A - C) - 4 * C * A := by ring
    have h5 : 2 * (-D) * (2 * (-D)) ≤ (A * A - A + C) * (A * A - A + C) := by nlinarith
    have h6 : 0 ≤ A * A - A + C := by nlinarith
    have h7 : 0 < A * A - A + C - 2 * D := by nlinarith
    nlinarith [h5, h7]

/-- One unmasked update of an escaped lane whose squared norm dominates the
squared norm of its parameter does not shrink the squared norm. -/
theorem normSq_step_ge (x y x0 y0 : ℚ)
    (hR : RMAX * RMAX ≤ x * x + y * y)
    (hC : x0 * x0 + y0 * y0 ≤ x * x + y * y) :
    x * x + y * y ≤
      (x * x - y * y + x0) * (x * x - y * y + x0)
        + (2 * (x * y) + y0) * (2 * (x * y) + y0) := by
  have hA4 : (4 : ℚ) ≤ x * x + y * y := by
    have : (4 : ℚ) ≤ RMAX * RMAX := by norm_num [RMAX, SCREEN_W]
    linarith
  have hC0 : (0 : ℚ) ≤ x0 * x0 + y0 * y0 :=
    add_nonneg (mul_self_nonneg x0) (mul_self_nonneg y0)
  have hD2 : ((x * x - y * y) * x0 + 2 * (x * y) * y0)
        * ((x * x - y * y) * x0 + 2 * (x * y) * y0)
      ≤ (x * x + y * y) * (x * x + y * y) * (x0 * x0 + y0 * y0) := by
    nlinarith [sq_nonneg ((x * x - y * y) * y0 - 2 * (x * y) * x0)]
  have hq := escape_quad (x * x + y * y) (x0 * x0 + y0 * y0)
    ((x * x - y * y) * x0 + 2 * (x * y) * y0) hA4 hC0 hC hD2
  nlinarith [hq]

/-- When the parameter itself starts escaped, the whole orbit stays escaped
and keeps dominating the parameter's squared norm. -/
theorem esc_orbit_of_esc_start (x0 y0 : ℚ)
    (hc : RMAX * RMAX ≤ x0 * x0 + y0 * y0) (t : ℕ) :
    RMAX * RMAX ≤ (traj x0 y0 t).1 * (traj x0 y0 t).1 + (traj x0 y0 t).2 * (traj x0 y0 t).2
      ∧ x0 * x0 + y0 * y0 ≤
        (traj x0 y0 t).1 * (traj x0 y0 t).1 + (traj x0 y0 t).2 * (traj x0 y0 t).2 := by
  induction t with
  | zero => exact ⟨hc, le_refl _⟩
  | succ t ih =>
    have hstep := normSq_step_ge (traj x0 y0 t).1 (traj x0 y0 t).2 x0 y0 ih.1 ih.2
    constructor
    · simp only [traj]
      linarith [ih.1, hstep]
    · simp only [traj]
      linarith [ih.2, hstep]

/-- Once a lane is escaped, it is still escaped after the next unmasked
update: the activity mask of `set_pixels` never resurrects a lane. -/
theorem esc_succ (x0 y0 : ℚ) (t : ℕ) (h : esc (traj x0 y0 t)) :
    esc (traj x0 y0 (t + 1)) := by
  rcases le_or_lt (RMAX * RMAX) (x0 * x0 + y0 * y0) with hc | hc
  · exact (esc_orbit_of_esc_start x0 y0 hc (t + 1)).1
  · unfold esc at h ⊢
    have hC : x0 * x0 + y0 * y0
        ≤ (traj x0 y0 t).1 * (traj x0 y0 t).1 + (traj x0 y0 t).2 * (traj x0 y0 t).2 :=
      le_trans hc.le h
    have hstep := normSq_step_ge (traj x0 y0 t).1 (traj x0 y0 t).2 x0 y0 h hC
    simp only [traj]
    linarith

/-- Monotonicity of the escape flag along the orbit. -/
theorem esc_persist (x0 y0 : ℚ) {t u : ℕ} (htu : t ≤ u) (h : esc (traj x0 y0 t)) :
    esc (traj x0 y0 u) := by
  induction u, htu using Nat.le_induction with
  | base => exact h
  | succ u _ ih => exact esc_succ x0 y0 u ih

/-! ## Count lemmas -/

theorem cnt_zero (x0 y0 : ℚ) : cnt x0 y0 0 = 0 := rfl

theorem cnt_succ (x0 y0 : ℚ) (t : ℕ) :
    cnt x0 y0 (t + 1) = cnt x0 y0 t + if esc (traj x0 y0 t) then 0 else 1 := rfl

theorem cnt_le (x0 y0 : ℚ) : ∀ t, cnt x0 y0 t ≤ t := by
  intro t
  induction t with
  | zero => simp [cnt_zero]
  | succ t ih =>
    rw [cnt_succ]
    split <;> omega

theorem cnt_full (x0 y0 : ℚ) :
    ∀ t, (∀ u, u < t → ¬esc (traj x0 y0 u)) → cnt x0 y0 t = t := by
  intro t
  induction t with
  | zero => simp [cnt_zero]
  | succ t ih =>
    intro h
    rw [cnt_succ, ih fun u hu => h u (by omega), if_neg (h t (by omega))]

/-- A lane still active at iteration `t` has been counted on every earlier
iteration. -/
theorem cnt_of_active (x0 y0 : ℚ) (t : ℕ) (h : ¬esc (traj x0 y0 t)) :
    cnt x0 y0 (t + 1) = t + 1 := by
  refine cnt_full x0 y0 (t + 1) fun u hu hesc => h ?_
  exact esc_persist x0 y0 (by omega) hesc

/-- An escaped lane stops accumulating count. -/
theorem cnt_stall (x0 y0 : ℚ) {t u : ℕ} (htu : t ≤ u) (h : esc (traj x0 y0 t)) :
    cnt x0 y0 u = cnt x0 y0 t := by
  induction u, htu using Nat.le_induction with
  | base => rfl
  | succ u hu ih =>
    rw [cnt_succ, if_pos (esc_persist x0 y0 hu h), ih, Nat.add_zero]

/-! ## The scalar ge-kernel counts exactly the active iterations -/

theorem iterateGeFrom_succ (x0 y0 r_max x y : ℚ) (fuel : ℕ) :
    iterateGeFrom x0 y0 r_max x y (fuel + 1)
      = if r_max * r_max ≤ x * x + y * y then 0
        else iterateGeFrom x0 y0 r_max (x * x - y * y + x0) (2 * (x * y) + y0) fuel + 1 :=
  rfl

theorem traj_succ_fst (x0 y0 : ℚ) (t : ℕ) :
    (traj x0 y0 (t + 1)).1
      = (traj x0 y0 t).1 * (traj x0 y0 t).1 - (traj x0 y0 t).2 * (traj x0 y0 t).2 + x0 :=
  rfl

theorem traj_succ_snd (x0 y0 : ℚ) (t : ℕ) :
    (traj x0 y0 (t + 1)).2 = 2 * ((traj x0 y0 t).1 * (traj x0 y0 t).2) + y0 :=
  rfl

theorem iterateGeFrom_traj (x0 y0 : ℚ) :
    ∀ f t, iterateGeFrom x0 y0 RMAX (traj x0 y0 t).1 (traj x0 y0 t).2 f + cnt x0 y0 t
      = cnt x0 y0 (t + f) := by
  intro f
  induction f with
  | zero => intro t; simp [iterateGeFrom]
  | succ f ih =>
    intro t
    rw [iterateGeFrom_succ]
    by_cases h : RMAX * RMAX
        ≤ (traj x0 y0 t).1 * (traj x0 y0 t).1 + (traj x0 y0 t).2 * (traj x0 y0 t).2
    · rw [if_pos h]
      have := cnt_stall x0 y0 (Nat.le_add_right t (f + 1)) h
      omega
    · rw [if_neg h]
      have harg := ih (t + 1)
      have hne : ¬esc (traj x0 y0 t) := h
      have hc : cnt x0 y0 (t + 1) = cnt x0 y0 t + 1 := by
        rw [cnt_succ, if_neg hne]
      rw [traj_succ_fst, traj_succ_snd, show t + 1 + f = t + (f + 1) by omega] at harg
      omega

theorem iterateGe_eq_cnt (x0 y0 : ℚ) :
    iterateGe x0 y0 NMAX RMAX = cnt x0 y0 NMAX := by
  have h := iterateGeFrom_traj x0 y0 NMAX 0
  rw [show traj x0 y0 0 = (x0, y0) from rfl, cnt_zero, Nat.add_zero, Nat.zero_add] at h
  exact h

/-! ## The vectorized loop computes the per-lane counts -/

/-- Lane state of the loop after `t` iterations: orbits and counts. -/
def stateAt (x0 : Fin 8 → ℚ) (y0 : ℚ) (t : ℕ) : VecState :=
  { x := fun i => (traj (x0 i) y0 t).1
    y := fun i => (traj (x0 i) y0 t).2
    N := fun i => cnt (x0 i) y0 t }

theorem vecRun_succ (x0 : Fin 8 → ℚ) (y0 : ℚ) (fuel : ℕ) (s : VecState) :
    vecRun x0 y0 (fuel + 1) s
      = if ∀ i, ¬(s.x i * s.x i + s.y i * s.y i < RMAX * RMAX) then some s.N
        else if ∃ i, s.N i + (if s.x i * s.x i + s.y i * s.y i < RMAX * RMAX then 1 else 0)
            = NMAX then
          some fun i => s.N i + if s.x i * s.x i + s.y i * s.y i < RMAX * RMAX then 1 else 0
        else
          vecRun x0 y0 fuel
            { x := fun i => s.x i * s.x i - s.y i * s.y i + x0 i
              y := fun i => 2 * (s.x i * s.y i) + y0
              N := fun i =>
                s.N i + if s.x i * s.x i + s.y i * s.y i < RMAX * RMAX then 1 else 0 } :=
  rfl

/-- Main simulation lemma: started at the state after `t` iterations with
`t + fuel = NMAX` and at least one unit of fuel, the loop of `set_pixels`
terminates and every lane returns `cnt` at `NMAX`. -/
theorem vecRun_stateAt (x0 : Fin 8 → ℚ) (y0 : ℚ) :
    ∀ f t, 1 ≤ f → t + f = NMAX →
      vecRun x0 y0 f (stateAt x0 y0 t) = some fun i => cnt (x0 i) y0 NMAX := by
  intro f
  induction f with
  | zero => intro t h1 _; exact absurd h1 (by omega)
  | succ f ih =>
    intro t h1 h2
    rw [vecRun_succ]
    simp only [stateAt]
    by_cases hall : ∀ i, esc (traj (x0 i) y0 t)
    · have hcond : ∀ i, ¬((traj (x0 i) y0 t).1 * (traj (x0 i) y0 t).1
          + (traj (x0 i) y0 t).2 * (traj (x0 i) y0 t).2 < RMAX * RMAX) :=
        fun i => not_lt.mpr (hall i)
      rw [if_pos hcond]
      refine congrArg some (funext fun i => ?_)
      exact (cnt_stall (x0 i) y0 (show t ≤ NMAX by omega) (hall i)).symm
    · obtain ⟨j, hj⟩ := not_forall.mp hall
      have hcond : ¬∀ i, ¬((traj (x0 i) y0 t).1 * (traj (x0 i) y0 t).1
          + (traj (x0 i) y0 t).2 * (traj (x0 i) y0 t).2 < RMAX * RMAX) :=
        fun hc => hc j (not_le.mp hj)
      rw [if_neg hcond]
      have hNi : ∀ i, cnt (x0 i) y0 t
          + (if (traj (x0 i) y0 t).1 * (traj (x0 i) y0 t).1
              + (traj (x0 i) y0 t).2 * (traj (x0 i) y0 t).2 < RMAX * RMAX then 1 else 0)
          = cnt (x0 i) y0 (t + 1) := by
        intro i
        rw [cnt_succ]
        by_cases hi : esc (traj (x0 i) y0 t)
        · rw [if_pos hi, if_neg (not_lt.mpr hi)]
        · rw [if_neg hi, if_pos (not_le.mp hi)]
      simp only [hNi, ← traj_succ_fst, ← traj_succ_snd]
      by_cases hex : ∃ i, cnt (x0 i) y0 (t + 1) = NMAX
      · rw [if_pos hex]
        obtain ⟨k, hk⟩ := hex
        have hk1 := cnt_le (x0 k) y0 (t + 1)
        have ht1 : t + 1 = NMAX := by omega
        rw [ht1]
      · rw [if_neg hex]
        have hf : 1 ≤ f := by
          by_contra hf0
          have hf00 : f = 0 := by omega
          have hact := cnt_of_active (x0 j) y0 t hj
          exact hex ⟨j, by omega⟩
        have hstate : VecState.mk (fun i => (traj (x0 i) y0 (t + 1)).1)
            (fun i => (traj (x0 i) y0 (t + 1)).2) (fun i => cnt (x0 i) y0 (t + 1))
            = stateAt x0 y0 (t + 1) := rfl
        rw [hstate]
        exact ih (t + 1) hf (by omega)

/-- Initially the loop state is the state after zero iterations. -/
theorem stateAt_zero (x0 : Fin 8 → ℚ) (y0 : ℚ) : stateAt x0 y0 0 = initState x0 y0 := rfl

/-- Lane counts of a batch are exactly the active-iteration counts. -/
theorem set_pixels_counts_eq_cnt (x0 : Fin 8 → ℚ) (y0 : ℚ) (i : Fin 8) :
    set_pixels_counts x0 y0 i = cnt (x0 i) y0 NMAX := by
  have h := vecRun_stateAt x0 y0 NMAX 0 (by norm_num [NMAX]) (Nat.zero_add _)
  rw [stateAt_zero] at h
  unfold set_pixels_counts
  rw [h, Option.getD_some]

/-- The `for (;;)` loop of `set_pixels` never consumes more than `NMAX`
units of fuel. -/
theorem vecRun_total (x0 : Fin 8 → ℚ) (y0 : ℚ) :
    vecRun x0 y0 NMAX (initState x0 y0) = some (set_pixels_counts x0 y0) := by
  have h := vecRun_stateAt x0 y0 NMAX 0 (by norm_num [NMAX]) (Nat.zero_add _)
  rw [stateAt_zero] at h
  rw [h]
  refine congrArg some (funext fun i => ?_)
  exact (set_pixels_counts_eq_cnt x0 y0 i).symm

/-- Per-lane refinement: each lane of the vectorized loop returns what the
scalar kernel with the `>=` escape comparison returns for that lane. -/
theorem set_pixels_counts_eq_iterateGe (x0 : Fin 8 → ℚ) (y0 : ℚ) (i : Fin 8) :
    set_pixels_counts x0 y0 i = iterateGe (x0 i) y0 NMAX RMAX := by
  rw [set_pixels_counts_eq_cnt, iterateGe_eq_cnt]

/-! ## Frame orchestration of set_pixels

The outer loops of `set_pixels`: per row `y` the starting `x0` vector holds
`center_x - 0.5*set_w + (7-i)*delta_x` in lane `i` (the `_mm256_set_ps`
argument order is high lane first); after the batch loop the eight pixels
are written in order `i = 7, ..., 0`, pixel `k` of the batch taking the
count of lane `7-k` and — as the unused x-argument — the lane-`k` entry of
the `x0` vector (the mirrored lane); after each batch the `x0` vector is
advanced by `8*delta_x`, and after each row `y0` by `delta_y`. -/

/-- Starting x-coordinate vector of a row. -/
def initX0 (t : Transform) : Fin 8 → ℚ :=
  fun i => t.center_x - 0.5 * t.set_w + ((7 - (i : ℕ) : ℕ) : ℚ) * (t.set_w / (SCREEN_W : ℚ))

/-- Bytes one batch appends to the buffer: the unrolled
`for (int i = 7; i >= 0; i--)` write loop of `set_pixels`. -/
def batchBytes (ct : Fin POSSIBLE_COLORS → IterColor) (x0v : Fin 8 → ℚ) (y0 : ℚ) :
    List ℕ :=
  [set_pixel_color ct (set_pixels_counts x0v y0 ⟨7, by omega⟩) (x0v ⟨0, by omega⟩) y0,
   set_pixel_color ct (set_pixels_counts x0v y0 ⟨6, by omega⟩) (x0v ⟨1, by omega⟩) y0,
   set_pixel_color ct (set_pixels_counts x0v y0 ⟨5, by omega⟩) (x0v ⟨2, by omega⟩) y0,
   set_pixel_color ct (set_pixels_counts x0v y0 ⟨4, by omega⟩) (x0v ⟨3, by omega⟩) y0,
   set_pixel_color ct (set_pixels_counts x0v y0 ⟨3, by omega⟩) (x0v ⟨4, by omega⟩) y0,
   set_pixel_color ct (set_pixels_counts x0v y0 ⟨2, by omega⟩) (x0v ⟨5, by omega⟩) y0,
   set_pixel_color ct (set_pixels_counts x0v y0 ⟨1, by omega⟩) (x0v ⟨6, by omega⟩) y0,
   set_pixel_color ct (set_pixels_counts x0v y0 ⟨0, by omega⟩) (x0v ⟨7, by omega⟩) y0].flatten

/-- Bytes of one row: `q` batches, the `x0` vector advancing by `8*delta_x`
between batches. -/
def rowBytes (ct : Fin POSSIBLE_COLORS → IterColor) (y0 dx : ℚ) :
    (Fin 8 → ℚ) → ℕ → List ℕ
  | _, 0 => []
  | x0v, q + 1 =>
    batchBytes ct x0v y0 ++ rowBytes ct y0 dx (fun i => x0v i + 8 * dx) q

/-- Bytes of the frame from `r` remaining rows, `y0` advancing by `delta_y`
between rows. -/
def frameRows (ct : Fin POSSIBLE_COLORS → IterColor) (t : Transform) : ℚ → ℕ → List ℕ
  | _, 0 => []
  | y0, r + 1 =>
    rowBytes ct y0 (t.set_w / (SCREEN_W : ℚ)) (initX0 t) (SCREEN_W / 8)
      ++ frameRows ct t (y0 + t.set_h / (SCREEN_H : ℚ)) r

/-- Model of `set_pixels`: the full RGBA byte buffer of one frame. -/
def set_pixels_frame (ct : Fin POSSIBLE_COLORS → IterColor) (t : Transform) : List ℕ :=
  frameRows ct t (t.center_y - 0.5 * t.set_h) SCREEN_H

/-! ## Buffer index bookkeeping -/

theorem length_set_pixel_color (ct : Fin POSSIBLE_COLORS → IterColor) (N : ℕ)
    (x y : ℚ) : (set_pixel_color ct N x y).length = 4 := by
  unfold set_pixel_color
  split <;> rfl

/-- The `x` and `y` arguments of `set_pixel_color` do not influence the
bytes written. -/
theorem set_pixel_color_args (ct : Fin POSSIBLE_COLORS → IterColor) (N : ℕ)
    (x y x2 y2 : ℚ) : set_pixel_color ct N x y = set_pixel_color ct N x2 y2 := rfl

theorem length_batchBytes (ct : Fin POSSIBLE_COLORS → IterColor) (x0v : Fin 8 → ℚ)
    (y0 : ℚ) : (batchBytes ct x0v y0).length = 32 := by
  simp [batchBytes, length_set_pixel_color]

theorem length_rowBytes (ct : Fin POSSIBLE_COLORS → IterColor) (y0 dx : ℚ) :
    ∀ q x0v, (rowBytes ct y0 dx x0v q).length = 32 * q := by
  intro q
  induction q with
  | zero => intro x0v; rfl
  | succ q ih =>
    intro x0v
    simp only [rowBytes, List.length_append, length_batchBytes, ih]
    ring

/-- Extracting the k-th length-4 block of a flattened list of length-4
blocks. -/
theorem flatten_slice :
    ∀ (L : List (List ℕ)), (∀ l ∈ L, l.length = 4) →
      ∀ k, k < L.length → ((L.flatten.drop (4 * k)).take 4) = L.getD k [] := by
  intro L
  induction L with
  | nil => intro _ k hk; exact absurd hk (by simp)
  | cons a L ih =>
    intro hlen k hk
    match k with
    | 0 =>
      have ha : a.length = 4 := hlen a (by simp)
      simp only [Nat.mul_zero, List.drop_zero, List.flatten_cons, List.getD_cons_zero]
      rw [List.take_append_of_le_length (by omega), ← ha, List.take_length]
    | k + 1 =>
      have ha : a.length = 4 := hlen a (by simp)
      have hstep : 4 * (k + 1) = a.length + 4 * k := by omega
      simp only [List.flatten_cons, List.getD_cons_succ]
      rw [hstep, List.drop_append]
      exact ih (fun l hl => hlen l (by simp [hl])) k (by simpa using hk)

/-- Pixel `k` of a batch (buffer order) is the color of lane `7-k`, written
with the mirrored lane-`k` x-argument. -/
theorem batch_slice (ct : Fin POSSIBLE_COLORS → IterColor) (x0v : Fin 8 → ℚ) (y0 : ℚ)
    (k : ℕ) (hk : k < 8) :
    ((batchBytes ct x0v y0).drop (4 * k)).take 4
      = set_pixel_color ct (set_pixels_counts x0v y0 ⟨7 - k, by omega⟩)
          (x0v ⟨k, by omega⟩) y0 := by
  rw [batchBytes, flatten_slice _
    (by intro l hl; fin_cases hl <;> exact length_set_pixel_color _ _ _ _) k
    (by simpa using hk)]
  interval_cases k <;> rfl

/-- Pixel `8*a + k` of a row of `q` batches. -/
theorem row_slice (ct : Fin POSSIBLE_COLORS → IterColor) (y0 dx : ℚ) :
    ∀ q (x0v : Fin 8 → ℚ) (a k : ℕ) (_ : a < q) (hk : k < 8),
      ((rowBytes ct y0 dx x0v q).drop (4 * (8 * a + k))).take 4
        = set_pixel_color ct
            (set_pixels_counts (fun i => x0v i + 8 * (a : ℚ) * dx) y0 ⟨7 - k, by omega⟩)
            ((fun i => x0v i + 8 * (a : ℚ) * dx) ⟨k, by omega⟩) y0 := by
  intro q
  induction q with
  | zero => intro x0v a k ha _; exact absurd ha (by omega)
  | succ q ih =>
    intro x0v a k ha hk
    match a with
    | 0 =>
      have hx : (fun i => x0v i + 8 * ((0 : ℕ) : ℚ) * dx) = x0v := by
        funext i; push_cast; ring
      rw [hx]
      simp only [rowBytes]
      rw [show 8 * 0 + k = k by omega]
      rw [List.drop_append_of_le_length (by rw [length_batchBytes]; omega)]
      rw [List.take_append_of_le_length (by
        rw [List.length_drop, length_batchBytes]; omega)]
      exact batch_slice ct x0v y0 k hk
    | a + 1 =>
      simp only [rowBytes]
      rw [show 4 * (8 * (a + 1) + k)
          = (batchBytes ct x0v y0).length + 4 * (8 * a + k) by
        rw [length_batchBytes]; omega]
      rw [List.drop_append]
      have h := ih (fun i => x0v i + 8 * dx) a k (by omega) hk
      rw [h]
      have hfun : (fun i => x0v i + 8 * dx + 8 * (a : ℚ) * dx)
          = fun i => x0v i + 8 * ((a + 1 : ℕ) : ℚ) * dx := by
        funext i; push_cast; ring
      rw [hfun]

/-- The 4-byte slice of row `j` of the frame at in-row offset `p`. -/
theorem frame_slice (ct : Fin POSSIBLE_COLORS → IterColor) (t : Transform) :
    ∀ r (y0 : ℚ) (j p : ℕ), j < r → p + 4 ≤ 4320 →
      ((frameRows ct t y0 r).drop (4320 * j + p)).take 4
        = ((rowBytes ct (y0 + (j : ℚ) * (t.set_h / (SCREEN_H : ℚ)))
            (t.set_w / (SCREEN_W : ℚ)) (initX0 t) (SCREEN_W / 8)).drop p).take 4 := by
  intro r
  induction r with
  | zero => intro y0 j p hj _; exact absurd hj (by omega)
  | succ r ih =>
    intro y0 j p hj hp
    have hlen : ∀ z : ℚ,
        (rowBytes ct z (t.set_w / (SCREEN_W : ℚ)) (initX0 t) (SCREEN_W / 8)).length
          = 4320 := by
      intro z
      rw [length_rowBytes]
      norm_num [SCREEN_W]
    match j with
    | 0 =>
      simp only [frameRows]
      rw [show 4320 * 0 + p = p by omega]
      rw [List.drop_append_of_le_length (by rw [hlen]; omega)]
      rw [List.take_append_of_le_length (by rw [List.length_drop, hlen]; omega)]
      rw [show y0 + ((0 : ℕ) : ℚ) * (t.set_h / (SCREEN_H : ℚ)) = y0 by push_cast; ring]
    | j + 1 =>
      simp only [frameRows]
      rw [show 4320 * (j + 1) + p
          = (rowBytes ct y0 (t.set_w / (SCREEN_W : ℚ)) (initX0 t) (SCREEN_W / 8)).length
            + (4320 * j + p) by rw [hlen]; omega]
      rw [List.drop_append]
      have h := ih (y0 + t.set_h / (SCREEN_H : ℚ)) j p (by omega) hp
      rw [h]
      rw [show y0 + t.set_h / (SCREEN_H : ℚ) + (j : ℚ) * (t.set_h / (SCREEN_H : ℚ))
          = y0 + ((j + 1 : ℕ) : ℚ) * (t.set_h / (SCREEN_H : ℚ)) by push_cast; ring]

/-- The 4 bytes of pixel (row `y`, column `x`) of a frame are the color of
the per-lane escape count of the plane point the pixel maps to. -/
theorem frame_pixel (ct : Fin POSSIBLE_COLORS → IterColor) (t : Transform) (x y : ℕ)
    (hx : x < SCREEN_W) (hy : y < SCREEN_H) :
    ((set_pixels_frame ct t).drop (4 * (SCREEN_W * y + x))).take 4
      = set_pixel_color ct
          (iterateGe (t.center_x - 0.5 * t.set_w + (x : ℚ) * (t.set_w / (SCREEN_W : ℚ)))
            (t.center_y - 0.5 * t.set_h + (y : ℚ) * (t.set_h / (SCREEN_H : ℚ)))
            NMAX RMAX)
          0 0 := by
  have hx' : x < 1080 := by simpa [SCREEN_W] using hx
  have hidx : 4 * (SCREEN_W * y + x) = 4320 * y + 4 * x := by
    simp only [SCREEN_W]
    omega
  rw [set_pixels_frame, hidx]
  rw [frame_slice ct t SCREEN_H (t.center_y - 0.5 * t.set_h) y (4 * x) hy (by omega)]
  obtain ⟨a, k, hk8, rfl⟩ : ∃ a k, k < 8 ∧ x = 8 * a + k :=
    ⟨x / 8, x % 8, Nat.mod_lt _ (by omega), by omega⟩
  have ha : a < SCREEN_W / 8 := by
    simp only [SCREEN_W]
    omega
  rw [row_slice ct _ _ (SCREEN_W / 8) (initX0 t) a k ha hk8]
  rw [set_pixel_color_args ct _ _ _ 0 0]
  rw [set_pixels_counts_eq_iterateGe]
  have hlane : initX0 t ⟨7 - k, by omega⟩ + 8 * (a : ℚ) * (t.set_w / (SCREEN_W : ℚ))
      = t.center_x - 0.5 * t.set_w + ((8 * a + k : ℕ) : ℚ) * (t.set_w / (SCREEN_W : ℚ)) := by
    rw [initX0]
    rw [show (7 : ℕ) - ((⟨7 - k, by omega⟩ : Fin 8) : ℕ) = k by
      simp only [Fin.val_mk]; omega]
    push_cast
    ring
  rw [hlane]

/-! ## Helpers for concrete evaluations -/

theorem iterateFrom_succ (x0 y0 r_max x y : ℚ) (fuel : ℕ) :
    iterateFrom x0 y0 r_max x y (fuel + 1)
      = if r_max * r_max < x * x + y * y then 0
        else iterateFrom x0 y0 r_max (x * x - y * y + x0) (2 * (x * y) + y0) fuel + 1 :=
  rfl

/-- The spec's scalar contract returns 0 from any escaped state. -/
theorem iterateFrom_of_escape (x0 y0 r_max x y : ℚ) (fuel : ℕ)
    (h : r_max * r_max < x * x + y * y) :
    iterateFrom x0 y0 r_max x y fuel = 0 := by
  match fuel with
  | 0 => rfl
  | fuel + 1 => rw [iterateFrom_succ, if_pos h]

/-- Either the stream starts with three numeric tokens, or the scan of a
triple fails. -/
theorem scanTriple_cases (toks : List ScanTok) :
    (∃ z1 z2 z3 rest, toks = .num z1 :: .num z2 :: .num z3 :: rest)
      ∨ scanTriple toks = none := by
  match toks with
  | .num z1 :: .num z2 :: .num z3 :: rest => exact Or.inl ⟨z1, z2, z3, rest, rfl⟩
  | [] => exact Or.inr rfl
  | .bad :: _ => exact Or.inr rfl
  | [.num _] => exact Or.inr rfl
  | .num _ :: .bad :: _ => exact Or.inr rfl
  | [.num _, .num _] => exact Or.inr rfl
  | .num _ :: .num _ :: .bad :: _ => exact Or.inr rfl

/-- Loop lemma for `load_color_table`: a missing or non-numeric token among
the `3*k` positions the remaining scans will consume yields
`INVALID_FORMAT` with a null buffer. -/
theorem load_from_fail :
    ∀ k (acc : List IterColor) (toks : List ScanTok),
      (∃ j, j < 3 * k ∧ ¬numAt toks j) →
      load_from acc toks k = (ExitCode.INVALID_FORMAT, none) := by
  intro k
  induction k with
  | zero =>
    intro acc toks h
    obtain ⟨j, hj, _⟩ := h
    exact absurd hj (by omega)
  | succ k ih =>
    intro acc toks h
    obtain ⟨j, hj, hnum⟩ := h
    rcases scanTriple_cases toks with ⟨z1, z2, z3, rest, rfl⟩ | hnone
    · have hj3 : 3 ≤ j := by
        by_contra h3
        interval_cases j <;> exact hnum ⟨_, rfl⟩
      simp only [load_from, scanTriple]
      refine ih _ rest ⟨j - 3, by omega, fun hz => ?_⟩
      obtain ⟨z, hz⟩ := hz
      refine hnum ⟨z, ?_⟩
      rw [show j = j - 3 + 3 by omega]
      simpa using hz
    · simp [load_from, hnone]

/-- Sample palette used by the witnesses. -/
def sampleTable : Fin POSSIBLE_COLORS → IterColor := fun _ => ⟨10, 20, 30⟩

/-- All-black palette, used as the `getD` default when projecting a loaded
table. -/
def defaultTable : Fin POSSIBLE_COLORS → IterColor := fun _ => ⟨0, 0, 0⟩

/-- Color-table source whose first entry holds the out-of-range value 300,
followed by 15 well-formed all-zero triples (48 numeric tokens in total). -/
def badFile : List ScanTok :=
  ScanTok.num 300 :: ScanTok.num 1 :: ScanTok.num 2
    :: List.replicate 45 (ScanTok.num 0)

/-- Sample viewport used by the witnesses. -/
def sampleTransform : Transform :=
  { center_x := 0, center_y := 0, set_w := 2, set_h := 3 }

/-- Sample all-escaped lane state used by the witnesses. -/
def sampleState : VecState :=
  { x := fun _ => 5000, y := fun _ => 0, N := fun _ => 0 }

/-! ## Claim theorems -/

/-- Claim C1 (counterexample): the claim as stated is false.  On the batch
whose lanes all start at `x0 = RMAX, y0 = 0` — exactly on the escape radius —
the vectorized loop of `set_pixels` treats every lane as escaped at once
(its mask keeps lanes active only while `x^2 + y^2 < RMAX^2`) and returns 0,
while the spec's scalar contract `iterate`, whose escape test is the strict
`x^2 + y^2 > r_max^2`, performs one more update and returns 1. -/
theorem C1_counterexample :
    set_pixels_counts (fun _ => RMAX) 0 0 ≠ iterate RMAX 0 NMAX RMAX := by
  have hv : set_pixels_counts (fun _ => RMAX) 0 0 = 0 := by
    rw [set_pixels_counts_eq_cnt]
    have he : esc (traj RMAX 0 0) := by
      simp [esc, traj]
    rw [cnt_stall RMAX 0 (Nat.zero_le NMAX) he]
    exact cnt_zero RMAX 0
  have hs : iterate RMAX 0 NMAX RMAX = 1 := by
    show iterateFrom RMAX 0 RMAX RMAX 0 NMAX = 1
    rw [show NMAX = 254 + 1 from rfl, iterateFrom_succ,
      if_neg (by norm_num : ¬(RMAX * RMAX < RMAX * RMAX + 0 * 0))]
    rw [iterateFrom_of_escape _ _ _ _ _ _ (by norm_num [RMAX, SCREEN_W])]
  rw [hv, hs]
  omega

/-- Claim C1 (amended): for every batch of 8 starting x-coordinates sharing
one `y0` and every lane `i`, the per-lane count of the vectorized loop of
`set_pixels` equals the scalar escape-time iteration with the escape test
the code implements, `x^2 + y^2 >= r_max^2` (the spec's strict `>` disagrees
only on points landing exactly on the escape radius), at the configured
`NMAX` and `RMAX`, including batches mixing early-escape and non-escape
lanes. -/
theorem C1_theorem (x0s : Fin 8 → ℚ) (y0 : ℚ) (i : Fin 8) :
    set_pixels_counts x0s y0 i = iterateGe (x0s i) y0 NMAX RMAX :=
  set_pixels_counts_eq_iterateGe x0s y0 i

/-- Claim C7 (counterexample): the claim's example point `(10, 10)` is not
outside the configured escape radius (`10^2 + 10^2 = 200 < RMAX^2`), and the
escape evaluation of `set_pixels` returns 2 for it, not 0. -/
theorem C7_counterexample :
    set_pixels_counts (fun _ => 10) 10 0 = 2 ∧ set_pixels_counts (fun _ => 10) 10 0 ≠ 0 := by
  have ht1 : traj 10 10 1 = (10, 210) := by
    rw [show traj 10 10 1
        = ((traj 10 10 0).1 * (traj 10 10 0).1 - (traj 10 10 0).2 * (traj 10 10 0).2 + 10,
           2 * ((traj 10 10 0).1 * (traj 10 10 0).2) + 10) from rfl]
    norm_num [traj]
  have ht2 : traj 10 10 2 = (-43990, 4210) := by
    rw [show traj 10 10 2
        = ((traj 10 10 1).1 * (traj 10 10 1).1 - (traj 10 10 1).2 * (traj 10 10 1).2 + 10,
           2 * ((traj 10 10 1).1 * (traj 10 10 1).2) + 10) from rfl, ht1]
    norm_num
  have e0 : ¬esc (traj 10 10 0) := by
    simp only [esc, traj]
    norm_num [RMAX, SCREEN_W]
  have e1 : ¬esc (traj 10 10 1) := by
    rw [ht1]
    simp only [esc]
    norm_num [RMAX, SCREEN_W]
  have e2 : esc (traj 10 10 2) := by
    rw [ht2]
    simp only [esc]
    norm_num [RMAX, SCREEN_W]
  have hval : set_pixels_counts (fun _ => 10) 10 0 = 2 := by
    rw [set_pixels_counts_eq_cnt]
    rw [cnt_stall 10 10 (show 2 ≤ NMAX by norm_num [NMAX]) e2]
    rw [show (2 : ℕ) = 1 + 1 from rfl, cnt_succ, if_neg e1]
    rw [show (1 : ℕ) = 0 + 1 from rfl, cnt_succ, if_neg e0, cnt_zero]
  exact ⟨hval, by rw [hval]; omega⟩

/-- Claim C7 (amended): every lane whose starting point satisfies
`x0^2 + y0^2 > RMAX^2` gets count 0 from the vectorized loop of
`set_pixels` — its counter is never incremented.  (The spec's example point
`(10, 10)` lies inside the configured radius `RMAX = 4320` and returns 2;
a genuinely far-outside point such as `(5000, 0)` returns 0.) -/
theorem C7_theorem (x0s : Fin 8 → ℚ) (y0 : ℚ) (i : Fin 8)
    (h : RMAX * RMAX < x0s i * x0s i + y0 * y0) :
    set_pixels_counts x0s y0 i = 0 := by
  rw [set_pixels_counts_eq_cnt]
  have he : esc (traj (x0s i) y0 0) := le_of_lt h
  rw [cnt_stall (x0s i) y0 (Nat.zero_le NMAX) he]
  exact cnt_zero (x0s i) y0

/-- Claim C7 witness: the far-outside point `(5000, 0)` escapes at once and
its lane count is 0. -/
theorem C7_witness :
    RMAX * RMAX < (5000 : ℚ) * 5000 + 0 * 0
      ∧ set_pixels_counts (fun _ => 5000) 0 0 = 0 :=
  ⟨by norm_num [RMAX, SCREEN_W],
   C7_theorem (fun _ => 5000) 0 0 (by norm_num [RMAX, SCREEN_W])⟩

/-- Claim C8: the per-batch loop of `set_pixels` terminates — with fuel
`NMAX` it returns the lane counts (so it runs at most `NMAX` iterations) and
every lane's final count is at most `NMAX`; moreover from any state in which
all 8 lanes have escaped (`x^2 + y^2 >= RMAX^2`) it exits on the very next
iteration, returning the current counts. -/
theorem C8_theorem :
    (∀ (x0s : Fin 8 → ℚ) (y0 : ℚ),
      vecRun x0s y0 NMAX (initState x0s y0) = some (set_pixels_counts x0s y0)
        ∧ ∀ i, set_pixels_counts x0s y0 i ≤ NMAX)
    ∧ ∀ (x0s : Fin 8 → ℚ) (y0 : ℚ) (f : ℕ) (s : VecState),
        (∀ i, RMAX * RMAX ≤ s.x i * s.x i + s.y i * s.y i) →
          vecRun x0s y0 (f + 1) s = some s.N := by
  constructor
  · intro x0s y0
    refine ⟨vecRun_total x0s y0, fun i => ?_⟩
    rw [set_pixels_counts_eq_cnt]
    exact cnt_le _ _ NMAX
  · intro x0s y0 f s h
    rw [vecRun_succ, if_pos fun i => not_lt.mpr (h i)]

/-- Claim C8 witness: from the all-escaped state `sampleState` the loop
returns immediately with the stored counts. -/
theorem C8_witness :
    (∀ i : Fin 8, RMAX * RMAX
        ≤ sampleState.x i * sampleState.x i + sampleState.y i * sampleState.y i)
      ∧ vecRun (fun _ => 0) 0 (0 + 1) sampleState = some sampleState.N :=
  ⟨fun i => by norm_num [sampleState, RMAX, SCREEN_W],
   C8_theorem.2 (fun _ => 0) 0 0 sampleState
     fun i => by norm_num [sampleState, RMAX, SCREEN_W]⟩

/-- Claim C9: the bytes `set_pixel_color` writes depend only on the count
and the color table — the `x` and `y` arguments (even the mirrored lane x
the renderer passes) never influence the output. -/
theorem C9_theorem (ct : Fin POSSIBLE_COLORS → IterColor) (N : ℕ)
    (x y x2 y2 : ℚ) : set_pixel_color ct N x y = set_pixel_color ct N x2 y2 :=
  rfl

/-- Claim C10: for count 0, `set_pixel_color` writes black with alpha 255 —
the same bytes as a count at the iteration bound — and the color table is
never read (any two tables give the same bytes for count 0). -/
theorem C10_theorem (ct ct2 : Fin POSSIBLE_COLORS → IterColor) (x y x2 y2 : ℚ) :
    set_pixel_color ct 0 x y = [0, 0, 0, 255]
    ∧ set_pixel_color ct 0 x y = set_pixel_color ct NMAX x2 y2
    ∧ set_pixel_color ct 0 x y = set_pixel_color ct2 0 x y :=
  ⟨rfl, rfl, rfl⟩

/-- Claim C2: for every frame, the 4 bytes at row-major pixel (row `y`,
column `x`) of the buffer `set_pixels` produces are the RGBA color of the
iteration count the code computes for the plane point
`x0 = center_x - 0.5*set_w + x*(set_w/width)`,
`y0 = center_y - 0.5*set_h + y*(set_h/height)`. -/
theorem C2_theorem (ct : Fin POSSIBLE_COLORS → IterColor) (t : Transform) (x y : ℕ)
    (hx : x < SCREEN_W) (hy : y < SCREEN_H) :
    ((set_pixels_frame ct t).drop (4 * (SCREEN_W * y + x))).take 4
      = set_pixel_color ct
          (iterateGe (t.center_x - 0.5 * t.set_w + (x : ℚ) * (t.set_w / (SCREEN_W : ℚ)))
            (t.center_y - 0.5 * t.set_h + (y : ℚ) * (t.set_h / (SCREEN_H : ℚ)))
            NMAX RMAX)
          0 0 :=
  frame_pixel ct t x y hx hy

/-- Claim C2 witness: instantiation at pixel (0, 0) of a sample frame. -/
theorem C2_witness :
    (0 : ℕ) < SCREEN_W ∧ (0 : ℕ) < SCREEN_H
      ∧ ((set_pixels_frame sampleTable sampleTransform).drop
          (4 * (SCREEN_W * 0 + 0))).take 4
        = set_pixel_color sampleTable
            (iterateGe (sampleTransform.center_x - 0.5 * sampleTransform.set_w
                + ((0 : ℕ) : ℚ) * (sampleTransform.set_w / (SCREEN_W : ℚ)))
              (sampleTransform.center_y - 0.5 * sampleTransform.set_h
                + ((0 : ℕ) : ℚ) * (sampleTransform.set_h / (SCREEN_H : ℚ)))
              NMAX RMAX)
            0 0 :=
  ⟨by norm_num [SCREEN_W], by norm_num [SCREEN_H],
   C2_theorem sampleTable sampleTransform 0 0 (by norm_num [SCREEN_W])
     (by norm_num [SCREEN_H])⟩

/-- Claim C3: for `0 < N < NMAX`, `set_pixel_color` writes the color-table
entry at index `N mod POSSIBLE_COLORS` (always in range) and alpha 255; for
`N >= NMAX` it writes black; the fourth byte is 255 in every case. -/
theorem C3_theorem (ct : Fin POSSIBLE_COLORS → IterColor) (N : ℕ) (x y : ℚ) :
    (0 < N → N < NMAX →
      set_pixel_color ct N x y
        = [(ct ⟨N % POSSIBLE_COLORS, Nat.mod_lt N (by decide)⟩).red,
           (ct ⟨N % POSSIBLE_COLORS, Nat.mod_lt N (by decide)⟩).green,
           (ct ⟨N % POSSIBLE_COLORS, Nat.mod_lt N (by decide)⟩).blue, 255]
        ∧ N % POSSIBLE_COLORS < POSSIBLE_COLORS)
    ∧ (NMAX ≤ N → set_pixel_color ct N x y = [0, 0, 0, 255])
    ∧ (set_pixel_color ct N x y).getD 3 0 = 255 := by
  refine ⟨fun h1 h2 => ⟨?_, Nat.mod_lt N (by decide)⟩, fun h => ?_, ?_⟩
  · rw [set_pixel_color, if_pos ⟨h1, h2⟩]
  · rw [set_pixel_color,
      if_neg fun hc => absurd (lt_of_le_of_lt h hc.2) (lt_irrefl _)]
  · rw [set_pixel_color]
    split <;> rfl

/-- Claim C3 witness: instantiation at `N = 5` with the sample palette. -/
theorem C3_witness :
    (0 : ℕ) < 5 ∧ (5 : ℕ) < NMAX
      ∧ set_pixel_color sampleTable 5 0 0
        = [(sampleTable ⟨5 % POSSIBLE_COLORS, Nat.mod_lt 5 (by decide)⟩).red,
           (sampleTable ⟨5 % POSSIBLE_COLORS, Nat.mod_lt 5 (by decide)⟩).green,
           (sampleTable ⟨5 % POSSIBLE_COLORS, Nat.mod_lt 5 (by decide)⟩).blue, 255]
      ∧ NMAX ≤ 300 ∧ set_pixel_color sampleTable 300 0 0 = [0, 0, 0, 255] :=
  ⟨by norm_num, by norm_num [NMAX],
   ((C3_theorem sampleTable 5 0 0).1 (by norm_num) (by norm_num [NMAX])).1,
   by norm_num [NMAX],
   (C3_theorem sampleTable 300 0 0).2.1 (by norm_num [NMAX])⟩

/-- Claim C4 (counterexample): the claim as stated is false — an entry that
is not a 0..255 integer does not invalidate the load.  `fscanf`'s `%hhu`
accepts the out-of-range value 300 and stores it narrowed modulo 256, so
the source `badFile` (first entry `300 1 2`, then 15 valid triples) loads
with exit code `OK` and a non-null table whose entry 0 has red channel 44,
instead of the whole-load `INVALID_FORMAT` the claim requires. -/
theorem C4_counterexample :
    (load_color_table (some badFile)).1 = ExitCode.OK
      ∧ (load_color_table (some badFile)).2.isSome = true
      ∧ ((load_color_table (some badFile)).2.getD defaultTable
          ⟨0, by norm_num [POSSIBLE_COLORS]⟩).red = 44 := by
  refine ⟨?_, ?_, ?_⟩ <;> decide

/-- Claim C4 (amended): `load_color_table` fails with `FILE_NOT_FOUND` when
the source cannot be opened, and with `INVALID_FORMAT` when a triple scan
fails within the first `POSSIBLE_COLORS` entries — that is, when one of the
first `3*POSSIBLE_COLORS` whitespace-separated tokens is missing or not
numeric; in both failure cases the output buffer pointer is left null.  A
numeric entry outside 0..255 does not invalidate the load: the `%hhu` scan
accepts it and stores its value reduced modulo 256. -/
theorem C4_theorem :
    load_color_table none = (ExitCode.FILE_NOT_FOUND, none)
    ∧ (∀ toks : List ScanTok,
        (∃ j, j < 3 * POSSIBLE_COLORS ∧ ¬numAt toks j) →
          load_color_table (some toks) = (ExitCode.INVALID_FORMAT, none))
    ∧ ∀ (z1 z2 z3 : ℤ) (rest : List ScanTok),
        scanTriple (.num z1 :: .num z2 :: .num z3 :: rest)
          = some (⟨byteOf z1, byteOf z2, byteOf z3⟩, rest) := by
  refine ⟨rfl, fun toks h => ?_, fun z1 z2 z3 rest => rfl⟩
  exact load_from_fail POSSIBLE_COLORS [] toks h

/-- Claim C4 witness: the empty source (no triples at all, hence fewer than
`POSSIBLE_COLORS` of them) loads as `INVALID_FORMAT` with a null buffer. -/
theorem C4_witness :
    (∃ j, j < 3 * POSSIBLE_COLORS ∧ ¬numAt ([] : List ScanTok) j)
      ∧ load_color_table (some []) = (ExitCode.INVALID_FORMAT, none) :=
  ⟨⟨0, by norm_num [POSSIBLE_COLORS], by simp [numAt]⟩,
   C4_theorem.2.1 [] ⟨0, by norm_num [POSSIBLE_COLORS], by simp [numAt]⟩⟩

/-- Claim C5: zoom-in (wheel up: both extents multiplied by `ZOOM_FACTOR`)
followed by zoom-out (wheel down: both divided by `ZOOM_FACTOR`) restores
`set_w` and `set_h` within relative tolerance `1e-5` (over the exact
rational model the restoration is exact). -/
theorem C5_theorem (t : Transform) (hw : 0 < t.set_w) (hh : 0 < t.set_h) :
    |(transform_input (Event.MouseWheelScrolled true (-1))
        (transform_input (Event.MouseWheelScrolled true 1) t)).set_w - t.set_w|
      ≤ 1 / 100000 * |t.set_w|
    ∧ |(transform_input (Event.MouseWheelScrolled true (-1))
        (transform_input (Event.MouseWheelScrolled true 1) t)).set_h - t.set_h|
      ≤ 1 / 100000 * |t.set_h| := by
  have hzoom : transform_input (Event.MouseWheelScrolled true (-1))
      (transform_input (Event.MouseWheelScrolled true 1) t)
      = { t with set_w := t.set_w * ZOOM_FACTOR / ZOOM_FACTOR,
                 set_h := t.set_h * ZOOM_FACTOR / ZOOM_FACTOR } := by
    simp [transform_input]
  rw [hzoom]
  have hcancel : ∀ a : ℚ, a * ZOOM_FACTOR / ZOOM_FACTOR = a := by
    intro a
    rw [mul_div_assoc, div_self (by norm_num [ZOOM_FACTOR]), mul_one]
  constructor
  · show |t.set_w * ZOOM_FACTOR / ZOOM_FACTOR - t.set_w| ≤ 1 / 100000 * |t.set_w|
    rw [hcancel, sub_self, abs_zero]
    positivity
  · show |t.set_h * ZOOM_FACTOR / ZOOM_FACTOR - t.set_h| ≤ 1 / 100000 * |t.set_h|
    rw [hcancel, sub_self, abs_zero]
    positivity

/-- Claim C5 witness: instantiation at the sample viewport. -/
theorem C5_witness :
    0 < sampleTransform.set_w ∧ 0 < sampleTransform.set_h
      ∧ |(transform_input (Event.MouseWheelScrolled true (-1))
          (transform_input (Event.MouseWheelScrolled true 1) sampleTransform)).set_w
            - sampleTransform.set_w|
        ≤ 1 / 100000 * |sampleTransform.set_w| :=
  ⟨by norm_num [sampleTransform], by norm_num [sampleTransform],
   (C5_theorem sampleTransform (by norm_num [sampleTransform])
     (by norm_num [sampleTransform])).1⟩

/-- Claim C6: each pan key shifts exactly one of `center_x`/`center_y` by
`MOVE_FACTOR` times the matching extent, with the direction's sign, leaving
the extents unchanged; a vertical wheel scroll scales only the two extents,
leaving the center unchanged; no other field of `Transform` exists or is
affected. -/
theorem C6_theorem (t : Transform) :
    transform_input (Event.KeyPressed Key.Up) t
        = { t with center_y := t.center_y - MOVE_FACTOR * t.set_h }
    ∧ transform_input (Event.KeyPressed Key.Down) t
        = { t with center_y := t.center_y + MOVE_FACTOR * t.set_h }
    ∧ transform_input (Event.KeyPressed Key.Left) t
        = { t with center_x := t.center_x - MOVE_FACTOR * t.set_w }
    ∧ transform_input (Event.KeyPressed Key.Right) t
        = { t with center_x := t.center_x + MOVE_FACTOR * t.set_w }
    ∧ (∀ d : ℚ, 0 < d → transform_input (Event.MouseWheelScrolled true d) t
        = { t with set_w := t.set_w * ZOOM_FACTOR, set_h := t.set_h * ZOOM_FACTOR })
    ∧ ∀ d : ℚ, d ≤ 0 → transform_input (Event.MouseWheelScrolled true d) t
        = { t with set_w := t.set_w / ZOOM_FACTOR, set_h := t.set_h / ZOOM_FACTOR } := by
  refine ⟨rfl, rfl, rfl, rfl, fun d hd => ?_, fun d hd => ?_⟩
  · simp [transform_input, hd]
  · simp [transform_input, not_lt.mpr hd]

/-- Claim C6 witness: instantiation of the zoom clauses at delta 1 and -1 on
the sample viewport. -/
theorem C6_witness :
    (0 : ℚ) < 1
      ∧ transform_input (Event.MouseWheelScrolled true 1) sampleTransform
        = { sampleTransform with set_w := sampleTransform.set_w * ZOOM_FACTOR,
                                 set_h := sampleTransform.set_h * ZOOM_FACTOR }
      ∧ (-1 : ℚ) ≤ 0
      ∧ transform_input (Event.MouseWheelScrolled true (-1)) sampleTransform
        = { sampleTransform with set_w := sampleTransform.set_w / ZOOM_FACTOR,
                                 set_h := sampleTransform.set_h / ZOOM_FACTOR } :=
  ⟨by norm_num, (C6_theorem sampleTransform).2.2.2.2.1 1 (by norm_num),
   by norm_num, (C6_theorem sampleTransform).2.2.2.2.2 (-1) (by norm_num)⟩
